import Mathlib

/-!
Verification of the `Tracker` utility in `utilities/experiment_utils.py`.

The tracker buffers per-batch losses, logs scalars to a list of `Logger`
sinks, and summarises each epoch.  We embed the class shallowly: loggers
are identified by natural numbers, a call to `Logger.log_scalar` is
recorded as an `Emission` paired with the receiving logger's identifier,
Python floats are rationals, and numpy's NaN (produced by `np.mean` of an
empty list) is the extra value `Val.nan`.  Python truthiness of optional
lists (`if not self.metrics`, `if self.metrics_names`) is modelled by
`optListTruthy`.  A raised exception is modelled by the `Option String`
error component of `computeMetrics`: the length assertion, and the
`TypeError` that `_pre` raises when the logging names fall back to the
metric callables while `pre_tag` is non-empty (string concatenation with
a callable).  The state returned alongside an error is the object state
at the moment the exception propagates, which for `compute_metrics` is
the unchanged receiver since both exceptions precede any field
assignment.
-/

/-- A logged scalar value: either a rational number or numpy's NaN. -/
inductive Val where
  | nan : Val
  | num : ℚ → Val
deriving DecidableEq, Repr

/-- One `log_scalar(tag, value, step)` call observed at a sink. -/
structure Emission where
  tag : String
  value : Val
  step : Nat
deriving DecidableEq, Repr

/-- A metric callable together with the string Python would use when the
callable object itself serves as the logging name. -/
structure Metric where
  f : List ℚ → List ℚ → ℚ
  objName : String

/-- Python truthiness of an optional list: `None` and `[]` are falsy. -/
def optListTruthy (o : Option (List α)) : Bool :=
  match o with
  | none => false
  | some l => !l.isEmpty

/-- State of a `Tracker` object (`Tracker.__init__` fields). -/
structure Tracker where
  epoch : Nat
  update : Nat
  losses : List ℚ
  loggers : List Nat
  log_every : Int
  metrics : Option (List Metric)
  metrics_names : Option (List String)
  pre_tag : String

/-- `Tracker.__init__`: counters start at zero and the loss buffer empty. -/
def mkTracker (loggers : List Nat) (log_every : Int) (metrics : Option (List Metric))
    (metrics_names : Option (List String)) (pre_tag : String) : Tracker :=
  { epoch := 0, update := 0, losses := [], loggers := loggers, log_every := log_every,
    metrics := metrics, metrics_names := metrics_names, pre_tag := pre_tag }

/-- `Tracker._pre`: `self.pre_tag + '.' + string if self.pre_tag else string`. -/
def Tracker.pre (t : Tracker) (s : String) : String :=
  if t.pre_tag = "" then s else t.pre_tag ++ "." ++ s

/-- `Tracker.track_loss`: bump `update` when `epoch > 0`, emit the loss on
the cadence, and always append to the buffer.  Returns the new state and
the emissions made during the call. -/
def Tracker.trackLoss (t : Tracker) (loss : ℚ) : Tracker × List (Nat × Emission) :=
  let t1 := if 0 < t.epoch then { t with update := t.update + 1 } else t
  let ems :=
    if 0 < t1.log_every ∧ (t1.update : Int) % t1.log_every = 0 ∧ t1.update ≠ 0 then
      t1.loggers.map (fun l =>
        (l, { tag := t1.pre "loss", value := Val.num loss, step := t1.update }))
    else []
  ({ t1 with losses := t1.losses ++ [loss] }, ems)

/-- `np.mean` of a list of floats: NaN when the list is empty. -/
def npMean (xs : List ℚ) : Val :=
  if xs.isEmpty then Val.nan else Val.num (xs.sum / (xs.length : ℚ))

/-- `Tracker.summarise`: average the buffer, clear it, emit `avg_loss` at
the pre-call epoch, advance the epoch, return the average. -/
def Tracker.summarise (t : Tracker) : Tracker × List (Nat × Emission) × Val :=
  let avg := npMean t.losses
  let t1 := { t with losses := [] }
  let ems := t1.loggers.map (fun l =>
    (l, { tag := t1.pre "avg_loss", value := avg, step := t1.epoch }))
  ({ t1 with epoch := t1.epoch + 1 }, ems, avg)

/-- Assertion message of `Tracker.compute_metrics`. -/
def assertMsg : String := "Ground truth and predictions are not the same length!"

/-- `names = self.metrics_names if self.metrics_names else self.metrics`.
A fallback callable is rendered by its `objName`; this rendering is only
reached when `pre_tag` is empty, where Python passes the raw callable
through `_pre` unchanged into `log_scalar`.  With a non-empty `pre_tag`
the fallback instead raises `TypeError` inside `_pre`, which
`computeMetrics` models before ever consulting these names. -/
def Tracker.namesOf (t : Tracker) : List String :=
  if optListTruthy t.metrics_names then t.metrics_names.getD []
  else (t.metrics.getD []).map (fun m => m.objName)

/-- Message of the `TypeError` raised by `self.pre_tag + '.' + string`
when `string` is a metric callable. -/
def typeErrMsg : String := "can only concatenate str (not \"function\") to str"

/-- `Tracker.compute_metrics`: no-op when `metrics` is falsy, assert equal
lengths, then emit every `(metric, name)` pair of `zip(metrics, names)` to
every logger at the current epoch.  The third component records a raised
exception.  When the names fall back to the metric callables (falsy
`metrics_names`) and `pre_tag` is non-empty, the very first
`_pre(metric_name)` call raises `TypeError` before any emission, provided
at least one logger iterates (`zip(metrics, metrics)` is non-empty here
because `metrics` is truthy); when `pre_tag` is empty, `_pre` returns the
callable itself, which reaches `log_scalar` raw and is recorded by its
`objName`. -/
def Tracker.computeMetrics (t : Tracker) (y_array pred_array : List ℚ) :
    Tracker × List (Nat × Emission) × Option String :=
  if !optListTruthy t.metrics then (t, [], none)
  else if y_array.length ≠ pred_array.length then (t, [], some assertMsg)
  else if optListTruthy t.metrics_names = false ∧ t.pre_tag ≠ "" ∧ t.loggers ≠ [] then
    (t, [], some typeErrMsg)
  else
    let pairs := (t.metrics.getD []).zip t.namesOf
    let ems := t.loggers.flatMap (fun l =>
      pairs.map (fun mn =>
        (l, { tag := t.pre mn.2, value := Val.num (mn.1.f y_array pred_array),
              step := t.epoch })))
    (t, ems, none)

/-- Iterated `track_loss` over a list of losses, collecting all emissions. -/
def Tracker.trackMany (t : Tracker) (ls : List ℚ) : Tracker × List (Nat × Emission) :=
  match ls with
  | [] => (t, [])
  | l :: rest =>
    let r1 := t.trackLoss l
    let r2 := r1.1.trackMany rest
    (r2.1, r1.2 ++ r2.2)

/-- The spec's example metric: `lambda y, p: 1.0 if y == p else 0.0`. -/
def accMetric : Metric :=
  { f := fun y p => if y = p then 1 else 0, objName := "acc" }

/-- A second metric, used to exercise `zip` truncation. -/
def zeroMetric : Metric :=
  { f := fun _ _ => 0, objName := "zero" }

/-- A tracker with two sinks and no metrics. -/
def tk9 : Tracker := mkTracker [0, 1] 1 none none "train"

/-- A tracker with one sink and one metric, no metric names. -/
def tk4 : Tracker := mkTracker [0] 1 (some [accMetric]) none ""

/-- C8: `compute_metrics` never modifies the tracker state: in every case
(no-op, normal return, or failed length assertion) the resulting state is
the input state, every field included; the call only emits to the sinks. -/
theorem computeMetrics_frame (t : Tracker) (y p : List ℚ) :
    (t.computeMetrics y p).1 = t := by
  unfold Tracker.computeMetrics
  split
  · rfl
  · split
    · rfl
    · split
      · rfl
      · rfl

/-- C9: when `metrics` is `None` or the empty list, `compute_metrics` is a
no-op for all inputs: no length check, no error, no emission. -/
theorem computeMetrics_noop (t : Tracker) (y p : List ℚ)
    (h : t.metrics = none ∨ t.metrics = some []) :
    t.computeMetrics y p = (t, [], none) := by
  have hf : optListTruthy t.metrics = false := by
    rcases h with h | h <;> simp [h, optListTruthy]
  simp [Tracker.computeMetrics, hf]

/-- C9 witness: a metric-less tracker ignores mismatched-length inputs. -/
theorem computeMetrics_noop_witness :
    (tk9.metrics = none ∨ tk9.metrics = some []) ∧
    tk9.computeMetrics [1, 2, 3] [1, 2] = (tk9, [], none) :=
  ⟨Or.inl rfl, computeMetrics_noop tk9 [1, 2, 3] [1, 2] (Or.inl rfl)⟩

/-- C4: with metrics configured and mismatched lengths, `compute_metrics`
fails its assertion before emitting anything, and the state is unchanged. -/
theorem computeMetrics_length_mismatch (t : Tracker) (y p : List ℚ)
    (hm : optListTruthy t.metrics = true) (hl : y.length ≠ p.length) :
    t.computeMetrics y p = (t, [], some assertMsg) := by
  simp [Tracker.computeMetrics, hm, hl]

/-- C4 witness: ground truth of length 3 against predictions of length 2. -/
theorem computeMetrics_length_mismatch_witness :
    optListTruthy tk4.metrics = true ∧
    ([1, 2, 3] : List ℚ).length ≠ ([1, 2] : List ℚ).length ∧
    tk4.computeMetrics [1, 2, 3] [1, 2] = (tk4, [], some assertMsg) :=
  ⟨by decide, by decide,
    computeMetrics_length_mismatch tk4 [1, 2, 3] [1, 2] (by decide) (by decide)⟩

/-- A tracker mid-training with a non-empty loss buffer. -/
def tk1 : Tracker := { mkTracker [0] 1 none none "" with losses := [2, 4], epoch := 3 }

/-- A freshly constructed tracker with one sink and an empty buffer. -/
def tk3 : Tracker := mkTracker [0] 1 none none ""

/-- C1: on a non-empty buffer, `summarise` returns the arithmetic mean,
clears the buffer, emits `avg_loss` (prefixed) with that mean to every
logger at the pre-call epoch, and advances the epoch by one. -/
theorem summarise_mean (t : Tracker) (h : t.losses ≠ []) :
    (t.summarise).2.2 = Val.num (t.losses.sum / (t.losses.length : ℚ)) ∧
    (t.summarise).1.losses = [] ∧
    (t.summarise).2.1 = t.loggers.map (fun l =>
      (l, { tag := t.pre "avg_loss",
            value := Val.num (t.losses.sum / (t.losses.length : ℚ)),
            step := t.epoch })) ∧
    (t.summarise).1.epoch = t.epoch + 1 := by
  have hE : t.losses.isEmpty = false := by
    cases hx : t.losses with
    | nil => exact absurd hx h
    | cons a l => rfl
  refine ⟨?_, rfl, ?_, rfl⟩ <;>
    simp [Tracker.summarise, npMean, hE, Tracker.pre]

/-- C1 witness: buffer `[2, 4]` at epoch 3 summarises to 3. -/
theorem summarise_mean_witness :
    tk1.losses ≠ [] ∧
    ((tk1.summarise).2.2 = Val.num (tk1.losses.sum / (tk1.losses.length : ℚ)) ∧
     (tk1.summarise).1.losses = [] ∧
     (tk1.summarise).2.1 = tk1.loggers.map (fun l =>
       (l, { tag := tk1.pre "avg_loss",
             value := Val.num (tk1.losses.sum / (tk1.losses.length : ℚ)),
             step := tk1.epoch })) ∧
     (tk1.summarise).1.epoch = tk1.epoch + 1) :=
  ⟨by decide, summarise_mean tk1 (by decide)⟩

/-- C3 counterexample: with an empty buffer, `summarise` does not fail:
`np.mean` of the empty list is NaN, which is emitted and returned, and
the epoch is still advanced. -/
theorem summarise_empty_cex :
    tk3.losses = [] ∧
    tk3.summarise = ({ tk3 with epoch := 1 },
      [(0, { tag := "avg_loss", value := Val.nan, step := 0 })], Val.nan) :=
  ⟨rfl, rfl⟩

/-- C3 amended: on an empty buffer, `summarise` returns NaN (it does not
raise), emits `avg_loss = NaN` at the pre-call epoch, and advances the
epoch as usual. -/
theorem summarise_empty (t : Tracker) (h : t.losses = []) :
    (t.summarise).2.2 = Val.nan ∧
    (t.summarise).1.epoch = t.epoch + 1 ∧
    (t.summarise).2.1 = t.loggers.map (fun l =>
      (l, { tag := t.pre "avg_loss", value := Val.nan, step := t.epoch })) := by
  refine ⟨?_, rfl, ?_⟩ <;> simp [Tracker.summarise, npMean, h, Tracker.pre]

/-- C3 amended witness: the fresh tracker returns NaN from `summarise`. -/
theorem summarise_empty_witness :
    tk3.losses = [] ∧
    ((tk3.summarise).2.2 = Val.nan ∧
     (tk3.summarise).1.epoch = tk3.epoch + 1 ∧
     (tk3.summarise).2.1 = tk3.loggers.map (fun l =>
       (l, { tag := tk3.pre "avg_loss", value := Val.nan, step := tk3.epoch }))) :=
  ⟨rfl, summarise_empty tk3 rfl⟩

/-- A nonnegative integer is `u % n = 0 ∧ u ≠ 0` for positive `n` exactly
when it is a positive multiple of `n`. -/
lemma pos_multiple_iff (u : Nat) (n : Int) (hn : 0 < n) :
    ((u : Int) % n = 0 ∧ u ≠ 0) ↔ ∃ k : Int, 0 < k ∧ (u : Int) = k * n := by
  constructor
  · rintro ⟨h1, h2⟩
    obtain ⟨k, hk⟩ := Int.dvd_of_emod_eq_zero h1
    refine ⟨k, ?_, by rw [hk, mul_comm]⟩
    by_contra hle
    push_neg at hle
    have hu0 : (0 : Int) < (u : Int) := by
      have hne : (u : Int) ≠ 0 := by exact_mod_cast h2
      have := Int.natCast_nonneg u
      omega
    have : n * k ≤ 0 := mul_nonpos_of_nonneg_of_nonpos (le_of_lt hn) hle
    linarith [hk ▸ hu0]
  · rintro ⟨k, hk0, hk⟩
    refine ⟨by rw [hk]; exact Int.mul_emod_left k n, ?_⟩
    intro h0
    subst h0
    have hpos : (0 : Int) < k * n := mul_pos hk0 hn
    simp at hk
    omega

/-- The `update` counter after a `track_loss` call. -/
lemma trackLoss_update (t : Tracker) (loss : ℚ) :
    (t.trackLoss loss).1.update =
      (if 0 < t.epoch then t.update + 1 else t.update) := by
  by_cases h : 0 < t.epoch <;> simp [Tracker.trackLoss, h]

/-- A cadence-disabled `track_loss` call at epoch 0 with `update = 0`. -/
lemma trackLoss_epoch0_step (t : Tracker) (loss : ℚ)
    (h1 : t.epoch = 0) (h2 : t.update = 0) :
    (t.trackLoss loss).2 = [] ∧ (t.trackLoss loss).1.epoch = 0 ∧
    (t.trackLoss loss).1.update = 0 := by
  refine ⟨?_, ?_, ?_⟩ <;> simp [Tracker.trackLoss, h1, h2]

/-- No emission ever happens while `epoch = 0` and `update = 0`. -/
lemma trackMany_no_emit (t : Tracker) (ls : List ℚ)
    (h1 : t.epoch = 0) (h2 : t.update = 0) :
    (t.trackMany ls).2 = [] := by
  induction ls generalizing t with
  | nil => simp [Tracker.trackMany]
  | cons l rest ih =>
    obtain ⟨h3, h4, h5⟩ := trackLoss_epoch0_step t l h1 h2
    simp [Tracker.trackMany, h3, ih (t.trackLoss l).1 h4 h5]

/-- Emissions of a single `track_loss` call, phrased over the
post-increment `update` value. -/
lemma trackLoss_ems (t : Tracker) (loss : ℚ) :
    (t.trackLoss loss).2 =
      if 0 < t.log_every ∧ ((t.trackLoss loss).1.update : Int) % t.log_every = 0 ∧
         (t.trackLoss loss).1.update ≠ 0 then
        t.loggers.map (fun l =>
          (l, { tag := t.pre "loss", value := Val.num loss,
                step := (t.trackLoss loss).1.update }))
      else [] := by
  by_cases h : 0 < t.epoch <;>
    simp [Tracker.trackLoss, h, Tracker.pre]

/-- Epoch-1 tracker with one sink and `log_every = 2`. -/
def tk2 : Tracker := { mkTracker [0] 2 none none "" with epoch := 1 }

/-- C2: `track_loss` increments `update` exactly when `epoch > 0`, emits
the loss to every sink at `step = update` exactly when `log_every > 0`
and `update` is a positive multiple of `log_every`, always appends to the
buffer; with `log_every = 2` at epoch 1, five losses emit on exactly the
2nd and 4th calls at steps 2 and 4. -/
theorem trackLoss_spec (t : Tracker) (loss : ℚ) :
    ((0 < t.epoch → (t.trackLoss loss).1.update = t.update + 1) ∧
     (t.epoch = 0 → (t.trackLoss loss).1.update = t.update)) ∧
    ((t.trackLoss loss).2 =
      if 0 < t.log_every ∧ ((t.trackLoss loss).1.update : Int) % t.log_every = 0 ∧
         (t.trackLoss loss).1.update ≠ 0 then
        t.loggers.map (fun l =>
          (l, { tag := t.pre "loss", value := Val.num loss,
                step := (t.trackLoss loss).1.update }))
      else []) ∧
    (0 < t.log_every →
      ((((t.trackLoss loss).1.update : Int) % t.log_every = 0 ∧
        (t.trackLoss loss).1.update ≠ 0) ↔
       ∃ k : Int, 0 < k ∧ ((t.trackLoss loss).1.update : Int) = k * t.log_every)) ∧
    (t.trackLoss loss).1.losses = t.losses ++ [loss] ∧
    (tk2.trackMany [10, 20, 30, 40, 50]).2 =
      [(0, { tag := "loss", value := Val.num 20, step := 2 }),
       (0, { tag := "loss", value := Val.num 40, step := 4 })] := by
  refine ⟨⟨?_, ?_⟩, trackLoss_ems t loss, ?_, ?_, ?_⟩
  · intro h; rw [trackLoss_update, if_pos h]
  · intro h; rw [trackLoss_update, if_neg (by omega)]
  · intro h; exact pos_multiple_iff _ _ h
  · by_cases h : 0 < t.epoch <;> simp [Tracker.trackLoss, h]
  · decide

/-- C2 witness: at epoch 1 the first tracked loss bumps `update` to 1. -/
theorem trackLoss_spec_witness :
    0 < tk2.epoch ∧ (tk2.trackLoss 10).1.update = tk2.update + 1 :=
  ⟨by decide, (trackLoss_spec tk2 10).1.1 (by decide)⟩

/-- Emissions of `track_loss` at epoch 0, phrased over the unchanged
pre-call `update` value. -/
lemma trackLoss_ems_epoch0 (t : Tracker) (loss : ℚ) (h : t.epoch = 0) :
    (t.trackLoss loss).2 =
      if 0 < t.log_every ∧ (t.update : Int) % t.log_every = 0 ∧ t.update ≠ 0 then
        t.loggers.map (fun l =>
          (l, { tag := t.pre "loss", value := Val.num loss, step := t.update }))
      else [] := by
  simp [Tracker.trackLoss, h]

/-- Epoch-0 tracker with two sinks and `log_every = 2`. -/
def tk5 : Tracker := mkTracker [0, 1] 2 none none "e"

/-- C5: at epoch 0, `track_loss` never increments `update`; an emission
can then occur only if the pre-existing `update` already satisfies
`update % log_every == 0 and update != 0`; and from a freshly
constructed tracker (where `update = 0`), no loss scalar is ever emitted
during epoch 0, for any `log_every` and any number of calls. -/
theorem epoch0_cadence (t : Tracker) (loss : ℚ) :
    (t.epoch = 0 → (t.trackLoss loss).1.update = t.update) ∧
    (t.epoch = 0 → (t.trackLoss loss).2 ≠ [] →
      (t.update : Int) % t.log_every = 0 ∧ t.update ≠ 0) ∧
    (∀ (lg : List Nat) (le : Int) (m : Option (List Metric))
        (mn : Option (List String)) (pt : String) (ls : List ℚ),
      ((mkTracker lg le m mn pt).trackMany ls).2 = []) := by
  refine ⟨?_, ?_, ?_⟩
  · intro h; rw [trackLoss_update, if_neg (by omega)]
  · intro h hne
    rw [trackLoss_ems_epoch0 t loss h] at hne
    by_cases hc : 0 < t.log_every ∧ (t.update : Int) % t.log_every = 0 ∧ t.update ≠ 0
    · exact ⟨hc.2.1, hc.2.2⟩
    · rw [if_neg hc] at hne
      exact absurd rfl hne
  · intro lg le m mn pt ls
    exact trackMany_no_emit (mkTracker lg le m mn pt) ls rfl rfl

/-- C5 witness: tracking at epoch 0 leaves `update` at 0, and ten calls
on a fresh tracker emit nothing. -/
theorem epoch0_cadence_witness :
    tk5.epoch = 0 ∧ (tk5.trackLoss 7).1.update = tk5.update ∧
    ((mkTracker [0, 1] 2 none none "e").trackMany
      [1, 2, 3, 4, 5, 6, 7, 8, 9, 10]).2 = [] :=
  ⟨rfl, (epoch0_cadence tk5 7).1 rfl,
    (epoch0_cadence tk5 7).2.2 [0, 1] 2 none none "e" [1, 2, 3, 4, 5, 6, 7, 8, 9, 10]⟩

/-- Every `track_loss` emission carries the prefixed `"loss"` tag. -/
lemma trackLoss_tag (t : Tracker) (loss : ℚ) :
    ∀ e ∈ (t.trackLoss loss).2, e.2.tag = t.pre "loss" := by
  intro e he
  rw [trackLoss_ems] at he
  split at he
  · obtain ⟨l, _, rfl⟩ := List.mem_map.mp he
    rfl
  · exact absurd he (List.not_mem_nil e)

/-- A tracker with the spec example prefix `"train"`. -/
def tk7 : Tracker := mkTracker [0] 1 none none "train"

/-- C7: every tag emitted by `track_loss`, `summarise` or
`compute_metrics` is `pre_tag + "." + name` when `pre_tag` is non-empty
and the bare `name` when `pre_tag` is empty; with `pre_tag = "train"` the
per-batch loss tag is `"train.loss"`. -/
theorem tag_prefixing (t : Tracker) (loss : ℚ) (y p : List ℚ) :
    (t.pre_tag ≠ "" → ∀ s, t.pre s = t.pre_tag ++ "." ++ s) ∧
    (t.pre_tag = "" → ∀ s, t.pre s = s) ∧
    (∀ e ∈ (t.trackLoss loss).2, e.2.tag = t.pre "loss") ∧
    (∀ e ∈ (t.summarise).2.1, e.2.tag = t.pre "avg_loss") ∧
    (∀ e ∈ (t.computeMetrics y p).2.1, ∃ n, e.2.tag = t.pre n) ∧
    (t.pre_tag = "train" → t.pre "loss" = "train.loss") := by
  refine ⟨?_, ?_, trackLoss_tag t loss, ?_, ?_, ?_⟩
  · intro h s; simp [Tracker.pre, h]
  · intro h s; simp [Tracker.pre, h]
  · intro e he
    simp only [Tracker.summarise, List.mem_map] at he
    obtain ⟨l, _, rfl⟩ := he
    rfl
  · intro e he
    simp only [Tracker.computeMetrics] at he
    split at he
    · simp at he
    · split at he
      · simp at he
      · split at he
        · simp at he
        · simp only [List.mem_flatMap, List.mem_map] at he
          obtain ⟨l, _, mn, _, rfl⟩ := he
          exact ⟨mn.2, rfl⟩
  · intro h; simp [Tracker.pre, h]

/-- C7 witness: the `"train"` prefix yields the tag `"train.loss"`. -/
theorem tag_prefixing_witness :
    tk7.pre_tag = "train" ∧ tk7.pre "loss" = "train.loss" :=
  ⟨rfl, (tag_prefixing tk7 0 [] []).2.2.2.2.2 rfl⟩

/-- Tracker with one metric and no `metrics_names` (spec example). -/
def tk6n : Tracker := mkTracker [0] 1 (some [accMetric]) none ""

/-- Tracker with one metric and a provided-but-empty `metrics_names`. -/
def tk6 : Tracker := mkTracker [0] 1 (some [accMetric]) (some []) ""

/-- C6 counterexample: `metrics_names` is provided (as the empty list),
yet the emitted tag is the metric object's own name, because Python
truthiness makes `metrics_names if metrics_names else metrics` fall back
to the metric objects; under the claim, the provided empty name list
would pair with no metric and nothing would be emitted. -/
theorem computeMetrics_names_cex :
    tk6.metrics_names = some [] ∧
    (tk6.computeMetrics [1, 0] [1, 0]).2.1 =
      [(0, { tag := "acc", value := Val.num 1, step := 0 })] :=
  ⟨rfl, by decide⟩

/-- Tracker with one metric, no names, and a non-empty prefix: the
fallback `TypeError` corner of `compute_metrics`. -/
def tk6e : Tracker := mkTracker [0] 1 (some [accMetric]) none "train"

/-- C6 amended: with metrics configured and equal lengths: outside the
fallback `TypeError` corner, the emissions are exactly one per logger and
per `zip(metrics, names)` pair, carrying `metric(y, pred)` at
`step = epoch` under the prefixed name, where the names are
`metrics_names` when provided and non-empty and the metric objects
themselves when `metrics_names` is absent or empty; in that fallback
case with a non-empty `pre_tag` and at least one logger, `_pre` raises
`TypeError` on the first pair and nothing is emitted. -/
theorem computeMetrics_emissions (t : Tracker) (y p : List ℚ)
    (hm : optListTruthy t.metrics = true) (hl : y.length = p.length) :
    (¬(optListTruthy t.metrics_names = false ∧ t.pre_tag ≠ "" ∧ t.loggers ≠ []) →
      (∀ l e, (l, e) ∈ (t.computeMetrics y p).2.1 ↔
        (l ∈ t.loggers ∧ ∃ mn ∈ (t.metrics.getD []).zip t.namesOf,
          e = { tag := t.pre mn.2, value := Val.num (mn.1.f y p), step := t.epoch })) ∧
      (t.computeMetrics y p).2.2 = none) ∧
    (optListTruthy t.metrics_names = false ∧ t.pre_tag ≠ "" ∧ t.loggers ≠ [] →
      t.computeMetrics y p = (t, [], some typeErrMsg)) ∧
    (∀ ns, t.metrics_names = some ns → ns ≠ [] → t.namesOf = ns) ∧
    (t.metrics_names = none →
      t.namesOf = (t.metrics.getD []).map (fun m => m.objName)) ∧
    (t.metrics_names = some [] →
      t.namesOf = (t.metrics.getD []).map (fun m => m.objName)) ∧
    (tk6n.computeMetrics [1, 0] [1, 0]).2.1 =
      [(0, { tag := "acc", value := Val.num 1, step := 0 })] := by
  refine ⟨?_, ?_, ?_, ?_, ?_, by decide⟩
  · intro hna
    have hbranch : t.computeMetrics y p =
        (t, t.loggers.flatMap (fun l =>
          ((t.metrics.getD []).zip t.namesOf).map (fun mn =>
            (l, { tag := t.pre mn.2, value := Val.num (mn.1.f y p), step := t.epoch }))),
         none) := by
      simp [Tracker.computeMetrics, hm, hl, hna]
    refine ⟨?_, by rw [hbranch]⟩
    intro l e
    rw [hbranch]
    simp only [List.mem_flatMap, List.mem_map, Prod.mk.injEq]
    constructor
    · rintro ⟨a, ha, mn, hmn, rfl, rfl⟩
      exact ⟨ha, mn, hmn, rfl⟩
    · rintro ⟨hl2, mn, hmn, rfl⟩
      exact ⟨l, hl2, mn, hmn, rfl, rfl⟩
  · intro hc
    simp [Tracker.computeMetrics, hm, hl, hc.1, hc.2.1, hc.2.2]
  · intro ns hns hne
    have hE : ns.isEmpty = false := by
      cases ns with
      | nil => exact absurd rfl hne
      | cons a l => rfl
    simp [Tracker.namesOf, hns, optListTruthy, hE]
  · intro h; simp [Tracker.namesOf, h, optListTruthy]
  · intro h; simp [Tracker.namesOf, h, optListTruthy]

/-- C6 witness: the spec example tracker emits without error, and the
non-empty-prefix fallback tracker raises `TypeError` with no emission
and unchanged state. -/
theorem computeMetrics_emissions_witness :
    optListTruthy tk6n.metrics = true ∧
    ([1, 0] : List ℚ).length = ([1, 0] : List ℚ).length ∧
    ¬(optListTruthy tk6n.metrics_names = false ∧ tk6n.pre_tag ≠ "" ∧ tk6n.loggers ≠ []) ∧
    (tk6n.computeMetrics [1, 0] [1, 0]).2.2 = none ∧
    (optListTruthy tk6e.metrics_names = false ∧ tk6e.pre_tag ≠ "" ∧ tk6e.loggers ≠ []) ∧
    tk6e.computeMetrics [1, 0] [1, 0] = (tk6e, [], some typeErrMsg) :=
  ⟨by decide, rfl, by decide,
    ((computeMetrics_emissions tk6n [1, 0] [1, 0] (by decide) rfl).1 (by decide)).2,
    by decide,
    (computeMetrics_emissions tk6e [1, 0] [1, 0] (by decide) rfl).2.1 (by decide)⟩

/-- Length of a `flatMap` whose pieces all have the same length. -/
lemma length_flatMap_const {α β : Type} (l : List α) (f : α → List β) (c : Nat)
    (h : ∀ a, (f a).length = c) : (l.flatMap f).length = l.length * c := by
  induction l with
  | nil => simp
  | cons a l ih => simp [List.flatMap_cons, h, ih]; ring

/-- Tracker with two metrics and a provided-but-empty `metrics_names`. -/
def tk10 : Tracker := mkTracker [0] 1 (some [accMetric, zeroMetric]) (some []) ""

/-- Tracker with two metrics and a single provided metric name. -/
def tk10w : Tracker := mkTracker [0] 1 (some [accMetric, zeroMetric]) (some ["a"]) ""

/-- C10 counterexample: with `metrics_names` provided as the empty list
(shorter than the two metrics), the claim predicts zero emissions (only
the first `len(metrics_names)` pairs), but Python truthiness falls back
to the metric objects and the code emits both metrics. -/
theorem metrics_names_empty_cex :
    tk10.metrics_names = some [] ∧
    (tk10.metrics.getD []).map (fun m => m.objName) = ["acc", "zero"] ∧
    (tk10.computeMetrics [1] [1]).2.1.length = 2 :=
  ⟨rfl, rfl, by decide⟩

/-- C10 amended: when `metrics_names` is provided non-empty but shorter
than `metrics`, `zip` silently truncates, so exactly
`len(loggers) * min(len(metrics), len(metrics_names))` scalars are
emitted, every tag drawn from the provided names (prefixed), with no
error; symmetrically, extra names beyond `metrics` are silently
ignored.  A provided empty list instead falls back to the metric
objects (see the counterexample). -/
theorem metrics_names_truncation (t : Tracker) (y p : List ℚ) (ns : List String)
    (hm : optListTruthy t.metrics = true) (hl : y.length = p.length)
    (hn : t.metrics_names = some ns) (hne : ns ≠ []) :
    (t.computeMetrics y p).2.1.length =
      t.loggers.length * min (t.metrics.getD []).length ns.length ∧
    (∀ e ∈ (t.computeMetrics y p).2.1, e.2.tag ∈ ns.map (fun n => t.pre n)) ∧
    (t.computeMetrics y p).2.2 = none := by
  have hE : ns.isEmpty = false := by
    cases ns with
    | nil => exact absurd rfl hne
    | cons a l => rfl
  have hT : optListTruthy t.metrics_names = true := by
    simp [hn, optListTruthy, hE]
  have hNames : t.namesOf = ns := by
    simp [Tracker.namesOf, hn, optListTruthy, hE]
  have hbranch : (t.computeMetrics y p).2.1 = t.loggers.flatMap (fun l =>
      ((t.metrics.getD []).zip ns).map (fun mn =>
        (l, { tag := t.pre mn.2, value := Val.num (mn.1.f y p), step := t.epoch }))) := by
    simp [Tracker.computeMetrics, hm, hl, hNames, hT]
  refine ⟨?_, ?_, ?_⟩
  · rw [hbranch,
      length_flatMap_const _ _ ((t.metrics.getD []).zip ns).length (fun a => by simp),
      List.length_zip]
  · intro e he
    rw [hbranch] at he
    simp only [List.mem_flatMap, List.mem_map] at he
    obtain ⟨l, _, ⟨m, n⟩, hmn, rfl⟩ := he
    exact List.mem_map.mpr ⟨n, (List.of_mem_zip hmn).2, rfl⟩
  · simp [Tracker.computeMetrics, hm, hl, hT]

/-- C10 witness: one provided name against two metrics emits exactly one
scalar per logger. -/
theorem metrics_names_truncation_witness :
    optListTruthy tk10w.metrics = true ∧
    ([1] : List ℚ).length = ([1] : List ℚ).length ∧
    tk10w.metrics_names = some ["a"] ∧ (["a"] : List String) ≠ [] ∧
    (tk10w.computeMetrics [1] [1]).2.1.length =
      tk10w.loggers.length *
        min (tk10w.metrics.getD []).length (["a"] : List String).length :=
  ⟨by decide, rfl, rfl, by decide,
    (metrics_names_truncation tk10w [1] [1] ["a"] (by decide) rfl rfl (by decide)).1⟩
